import Mathlib

/-!
Shallow embedding of the `response` package of FastUtilitiesNet
(src/response/{config,errors,helpers,interceptors,tracing}.go) and proofs
about the claims of its specification.

Modelling conventions:
* Go `int` is modelled as `Int`; byte counts as `Nat`/`Int` via UTF-8 size.
* `time.Time` values are modelled by the RFC3339 text they marshal to
  (field `Timestamp : String`); `time.Now()` becomes an explicit `ts` argument.
* The process-wide mutable globals (`globalConfig`, `interceptors`) are passed
  explicitly: `g : Config` is the current global configuration snapshot and
  `snapshot : List Interceptor` is the interceptor registry snapshot taken by
  `sendInternal`.
* `http.ResponseWriter` is modelled by the `Emitted` record (content-type
  header, status code, body bytes written).
* Go pointer methods that may return a pointer different from the receiver
  (`WithCode`) are modelled as returning a pair
  (state of the receiver after the call, response the fluent chain continues on).
* The field `TracePrefix` of the Go struct is rendered here as `TracePfx`.
-/

namespace GoResponse

/-- Model of arbitrary JSON-serializable payloads attached via `WithData`
(the Go field `Data any`), restricted to values that are already JSON-shaped. -/
inductive Json where
  | null : Json
  | bool (b : Bool) : Json
  | num (n : Int) : Json
  | str (s : String) : Json
  | arr (elems : List Json) : Json
  | obj (fields : List (String × Json)) : Json

/-- Configuration struct from src/response/config.go (`type Config struct`). -/
structure Config where
  MaxTraceSize : Int
  ResponseSizeLimit : Int
  MaxInterceptorAmount : Int
  DefaultContentType : String
  EnableSizeValidation : Bool
deriving DecidableEq

/-- Built-in defaults (`var defaultConfig`), config.go lines 14-20. -/
def defaultConfig : Config :=
  { MaxTraceSize := 50
    ResponseSizeLimit := 10 * 1024 * 1024
    MaxInterceptorAmount := 20
    DefaultContentType := "application/json"
    EnableSizeValidation := true }

/-- Zero value of the Go `Config` struct. -/
def zeroConfig : Config :=
  { MaxTraceSize := 0
    ResponseSizeLimit := 0
    MaxInterceptorAmount := 0
    DefaultContentType := ""
    EnableSizeValidation := false }

/-- SetConfig (config.go lines 34-53): normalizes non-positive numeric fields
and an empty content type to the built-in defaults and returns the new value of
the global configuration. -/
def SetConfig (config : Config) : Config :=
  let config := if config.MaxTraceSize ≤ 0 then
    { config with MaxTraceSize := defaultConfig.MaxTraceSize } else config
  let config := if config.ResponseSizeLimit ≤ 0 then
    { config with ResponseSizeLimit := defaultConfig.ResponseSizeLimit } else config
  let config := if config.MaxInterceptorAmount ≤ 0 then
    { config with MaxInterceptorAmount := defaultConfig.MaxInterceptorAmount } else config
  let config := if config.DefaultContentType = "" then
    { config with DefaultContentType := defaultConfig.DefaultContentType } else config
  config

/-- PaginationMeta struct from src/response/pagination.go. -/
structure PaginationMeta where
  Page : Int
  Limit : Int
  Total : Int
  TotalPages : Int
  HasNext : Bool
  HasPrev : Bool
  NextPage : Option Int
  PrevPage : Option Int
deriving DecidableEq

/-- Response struct from src/response/interceptors.go lines 62-73.
`TracePfx` renders the Go field `TracePrefix`. -/
structure Response where
  Module : String
  Message : String
  Data : Option Json
  Trace : List String
  Timestamp : String
  PaginationData : Option PaginationMeta
  Code : Int
  ContentType : String
  TracePfx : String
  config : Config

/-- getResponseConfig (config.go lines 71-79): the per-response override is in
effect when any numeric field is positive or the content type is non-empty;
otherwise the global configuration applies.  Note the boolean field
`EnableSizeValidation` is not consulted, exactly as in the source. -/
def getResponseConfig (g : Config) (r : Response) : Config :=
  if 0 < r.config.MaxTraceSize ∨ 0 < r.config.ResponseSizeLimit ∨
      0 < r.config.MaxInterceptorAmount ∨ r.config.DefaultContentType ≠ "" then
    r.config
  else g

/-- Error text of `StatusCodeError` (errors.go lines 74-76). -/
def statusCodeErrorText (code : Int) : String :=
  "invalid HTTP status code: " ++ toString code

/-- validateStatusCode (helpers.go lines 5-12); `some` carries the text of the
returned `StatusCodeError`. -/
def validateStatusCode (code : Int) : Option String :=
  if code < 100 ∨ code > 599 then some (statusCodeErrorText code) else none

/-- Arguments of the variadic `trace ...any` parameters of the trace functions
(tracing.go).  The Go code type-switches on `string`, `error` and
`fmt.Stringer`; the three representable constructors carry the resulting text
(the literal string, `v.Error()`, `v.String()` respectively); `other` stands
for any value of a different dynamic type. -/
inductive TraceVal where
  | str (s : String) : TraceVal
  | err (s : String) : TraceVal
  | stringer (s : String) : TraceVal
  | other : TraceVal
deriving DecidableEq

/-- Text extracted by the type switch of appendTrace (tracing.go lines 32-41);
`none` corresponds to the `default: continue` arm. -/
def toText : TraceVal → Option String
  | .str s => some s
  | .err s => some s
  | .stringer s => some s
  | .other => none

/-- Truncation marker written by appendTrace (tracing.go line 51). -/
def truncMsg (m : Int) : String :=
  "Error: (trace truncated, max size: " ++ toString m ++ ")"

/-- Loop body of appendTrace (tracing.go lines 30-58), acting on the trace
list.  Mirrors the Go control flow: append while below capacity; at capacity,
in force mode overwrite slot `MaxTraceSize-1` with the bare text and continue;
in non-force mode write the truncation marker into that slot unless it is
already there, then `break`. -/
def appendTraceLoop (cfg : Config) (pfx : String) (force : Bool) :
    List String → List TraceVal → List String
  | tr, [] => tr
  | tr, t :: rest =>
    match toText t with
    | none => appendTraceLoop cfg pfx force tr rest
    | some s =>
      if (tr.length : Int) < cfg.MaxTraceSize then
        appendTraceLoop cfg pfx force (tr ++ [pfx ++ ": " ++ s]) rest
      else if force then
        if 0 < cfg.MaxTraceSize then
          appendTraceLoop cfg pfx force (tr.set (cfg.MaxTraceSize - 1).toNat s) rest
        else
          appendTraceLoop cfg pfx force tr rest
      else
        if 0 < cfg.MaxTraceSize then
          if tr.getD (cfg.MaxTraceSize - 1).toNat "" = truncMsg cfg.MaxTraceSize then tr
          else tr.set (cfg.MaxTraceSize - 1).toNat (truncMsg cfg.MaxTraceSize)
        else
          appendTraceLoop cfg pfx force tr rest

/-- appendTrace (tracing.go lines 27-60). -/
def appendTrace (g : Config) (r : Response) (pfx : String) (force : Bool)
    (trace : List TraceVal) : Response :=
  { r with Trace := appendTraceLoop (getResponseConfig g r) pfx force r.Trace trace }

/-- AddTrace (tracing.go lines 6-11). -/
def AddTrace (g : Config) (r : Response) (trace : List TraceVal) : Response :=
  if r.TracePfx = "" then appendTrace g r "trace" false trace
  else appendTrace g r r.TracePfx false trace

/-- AddPrefixedTrace (tracing.go lines 14-19). -/
def AddPrefixedTrace (g : Config) (r : Response) (pfx : String)
    (trace : List TraceVal) : Response :=
  if pfx = "" then appendTrace g r "trace" false trace
  else appendTrace g r pfx false trace

/-- appendTraceInternal (tracing.go lines 22-24). -/
def appendTraceInternal (g : Config) (r : Response) (pfx : String)
    (trace : List TraceVal) : Response :=
  appendTrace g r pfx true trace

/-- newBaseResponse (config.go lines 135-150).  `ts` is the RFC3339 text of
`time.Now()`; `msg` models the variadic parameter. -/
def newBaseResponse (g : Config) (ts : String) (code : Int)
    (msg : List String) : Response :=
  { Module := ""
    Message := msg.headD ""
    Data := none
    Trace := []
    Timestamp := ts
    PaginationData := none
    Code := code
    ContentType := g.DefaultContentType
    TracePfx := ""
    config := zeroConfig }

/-- OK constructor (config.go lines 177-179). -/
def OK (g : Config) (ts : String) (msg : List String) : Response :=
  newBaseResponse g ts 200 msg

/-- NotFound constructor (config.go lines 201-203). -/
def NotFound (g : Config) (ts : String) (msg : List String) : Response :=
  newBaseResponse g ts 404 msg

/-- InternalServerError constructor (config.go lines 216-218). -/
def InternalServerError (g : Config) (ts : String) (msg : List String) : Response :=
  newBaseResponse g ts 500 msg

/-- WithMsg (interceptors.go lines 112-115). -/
def WithMsg (r : Response) (message : String) : Response :=
  { r with Message := message }

/-- WithContentType (interceptors.go lines 102-105). -/
def WithContentType (r : Response) (ctype : String) : Response :=
  { r with ContentType := ctype }

/-- WithModule (interceptors.go lines 107-110). -/
def WithModule (r : Response) (module : String) : Response :=
  { r with Module := module }

/-- WithData (interceptors.go lines 117-120). -/
def WithData (r : Response) (data : Json) : Response :=
  { r with Data := some data }

/-- WithCode (interceptors.go lines 128-136).  Returns the pair
(state of the receiver after the call, response returned to the chain):
on a valid code the receiver is mutated and returned (both components are that
updated state); on an invalid code the receiver is untouched and a fresh
internal-error response carrying the diagnostic is returned. -/
def WithCode (g : Config) (ts : String) (r : Response) (code : Int) :
    Response × Response :=
  match validateStatusCode code with
  | some errText =>
    (r, appendTraceInternal g
      (InternalServerError g ts ["Invalid status code set"]) "error" [.err errText])
  | none =>
    let r' := { r with Code := code }
    (r', r')

/-- WithConfig (interceptors.go lines 77-100). -/
def WithConfig (g : Config) (r : Response) (config : Config) : Response :=
  let config := if config.MaxTraceSize ≤ 0 then
    { config with MaxTraceSize := defaultConfig.MaxTraceSize } else config
  let config := if config.ResponseSizeLimit ≤ 0 then
    { config with ResponseSizeLimit := defaultConfig.ResponseSizeLimit } else config
  let config := if config.MaxInterceptorAmount ≤ 0 then
    { config with MaxInterceptorAmount := defaultConfig.MaxInterceptorAmount } else config
  let config := if config.DefaultContentType = "" then
    { config with DefaultContentType := defaultConfig.DefaultContentType } else config
  let r := { r with config := config }
  if r.ContentType = "" ∨ r.ContentType = g.DefaultContentType then
    { r with ContentType := config.DefaultContentType }
  else r

/-- Lower-case hex digit, as produced by Go's JSON string escaper. -/
def hexDigit (n : Nat) : Char :=
  if n < 10 then Char.ofNat (48 + n) else Char.ofNat (87 + n)

/-- Escape of one character inside a JSON string.  With `html = true` this is
the default behavior of `encoding/json` (package used by `sendInternal`),
which additionally escapes the HTML characters.  With `html = false` it is the
default behavior of `encoding/json/v2` (package imported by helpers.go and so
used by `estimateSize`), which does not escape HTML characters. -/
def escChar (html : Bool) (c : Char) : String :=
  if c = '"' then "\\\""
  else if c = '\\' then "\\\\"
  else if c = '\n' then "\\n"
  else if c = '\r' then "\\r"
  else if c = '\t' then "\\t"
  else if html = true ∧ (c = '<' ∨ c = '>' ∨ c = '&') then
    "\\u00" ++ String.mk [hexDigit (c.toNat / 16), hexDigit (c.toNat % 16)]
  else if c.toNat < 32 then
    "\\u00" ++ String.mk [hexDigit (c.toNat / 16), hexDigit (c.toNat % 16)]
  else String.singleton c

/-- JSON string-body escaping. -/
def escapeString (html : Bool) (s : String) : String :=
  String.join (s.data.map (escChar html))

/-- Quoted JSON string literal. -/
def jstr (html : Bool) (s : String) : String :=
  "\"" ++ escapeString html s ++ "\""

/-- Encoding of a `Json` payload value. -/
def Json.enc (html : Bool) : Json → String
  | .null => "null"
  | .bool b => if b then "true" else "false"
  | .num n => toString n
  | .str s => jstr html s
  | .arr elems =>
    "[" ++ String.intercalate "," (elems.attach.map fun e => Json.enc html e.1) ++ "]"
  | .obj fields =>
    "\x7b" ++ String.intercalate ","
      (fields.attach.map fun f => jstr html f.1.1 ++ ":" ++ Json.enc html f.1.2) ++ "\x7d"
decreasing_by
  · have h := List.sizeOf_lt_of_mem e.2
    simp only [Json.arr.sizeOf_spec]
    omega
  · have h := List.sizeOf_lt_of_mem f.2
    have h2 : sizeOf f.1.2 < sizeOf f.1 := by
      obtain ⟨⟨k, v⟩, hf⟩ := f
      simp only [Prod.mk.sizeOf_spec]
      omega
    simp only [Json.obj.sizeOf_spec]
    omega

/-- Rendering of a Go bool in JSON. -/
def boolStr (b : Bool) : String := if b then "true" else "false"

/-- Encoding of `PaginationMeta` (pagination.go): all fields in declaration
order, the two pointer fields omitted when nil (tag `omitempty`). -/
def encPagination (p : PaginationMeta) : String :=
  "\x7b\"page\":" ++ toString p.Page ++ ",\"limit\":" ++ toString p.Limit ++
  ",\"total\":" ++ toString p.Total ++ ",\"total_pages\":" ++ toString p.TotalPages ++
  ",\"has_next\":" ++ boolStr p.HasNext ++ ",\"has_prev\":" ++ boolStr p.HasPrev ++
  (match p.NextPage with | none => "" | some n => ",\"next_page\":" ++ toString n) ++
  (match p.PrevPage with | none => "" | some n => ",\"prev_page\":" ++ toString n) ++
  "\x7d"

/-- Body produced by `Encoder.Encode` on a `Response` (struct tags of
interceptors.go lines 62-73): fields in declaration order, `omitempty` on all
of them, `ContentType`/`TracePrefix`/`config` never serialized, and a trailing
newline appended by `Encode`.  `htmlEscape` selects the string escaper;
`omitZeroInt` is true for `encoding/json`, whose `omitempty` drops the zero
`code`, and false for `encoding/json/v2`, whose `omitempty` keeps a zero
number.  In both packages an empty string, nil/empty slice, nil pointer and
nil interface are omitted, and a `time.Time` is never omitted. -/
def encodeResponseCore (htmlEscape omitZeroInt : Bool) (r : Response) : String :=
  "\x7b" ++ String.intercalate "," (
    (if r.Module = "" then [] else ["\"module\":" ++ jstr htmlEscape r.Module])
    ++ (if r.Message = "" then [] else ["\"message\":" ++ jstr htmlEscape r.Message])
    ++ (match r.Data with
        | none => []
        | some j => ["\"data\":" ++ Json.enc htmlEscape j])
    ++ (if r.Trace = [] then []
        else ["\"trace\":[" ++ String.intercalate "," (r.Trace.map (jstr htmlEscape)) ++ "]"])
    ++ ["\"timestamp\":" ++ jstr htmlEscape r.Timestamp]
    ++ (match r.PaginationData with
        | none => []
        | some p => ["\"pagination\":" ++ encPagination p])
    ++ (if omitZeroInt = true ∧ r.Code = 0 then [] else ["\"code\":" ++ toString r.Code])
  ) ++ "\x7d\n"

/-- Encoding used by the delivery pipeline: `encoding/json` (interceptors.go
line 57), which HTML-escapes and omits a zero `code`. -/
def encodeResponseV1 (r : Response) : String := encodeResponseCore true true r

/-- Encoding used by the size estimator: `encoding/json/v2` (helpers.go
line 3), which does not HTML-escape and keeps a zero `code`. -/
def encodeResponseV2 (r : Response) : String := encodeResponseCore false false r

/-- estimateSize (helpers.go lines 23-30): byte count of the encoder output. -/
def estimateSize (r : Response) : Int :=
  ((encodeResponseV2 r).utf8ByteSize : Int)

/-- validateResponseSize (helpers.go lines 33-52); `some (size, max)` carries
the data of the returned `SizeLimitError`.  Encoding of the modelled payloads
never fails, so the `EncodingError` path is not reachable here. -/
def validateResponseSize (g : Config) (r : Response) : Option (Int × Int) :=
  let config := getResponseConfig g r
  if config.EnableSizeValidation = false then none
  else if config.ResponseSizeLimit < estimateSize r then
    some (estimateSize r, config.ResponseSizeLimit)
  else none

/-- Model of the `context.Context` argument: Go `nil`, `context.Background()`,
or a request-scoped context (distinguished by an id). -/
inductive Ctx where
  | nilCtx : Ctx
  | background : Ctx
  | custom (id : Nat) : Ctx
deriving DecidableEq

/-- Condition `ctx != nil && ctx != context.Background()` of sendInternal
(interceptors.go line 163). -/
def ctxNonEmpty : Ctx → Bool
  | .custom _ => true
  | _ => false

/-- ResponseInterceptor interface (interceptors.go lines 8-14): both
capabilities may mutate the response they are handed. -/
structure Interceptor where
  Intercept : Ctx → Response → Int → Response
  InterceptSimple : Response → Int → Response

/-- Destination of a delivery (the `http.ResponseWriter`): content-type header,
status code written by `WriteHeader`, and the body bytes written. -/
structure Emitted where
  contentType : String
  code : Int
  body : String
deriving DecidableEq

/-- Interceptor loop of sendInternal (interceptors.go lines 162-168) acting on
the snapshot, threading the possibly-mutated response and recording for each
interceptor its position and whether the context-aware capability was used. -/
def runInterceptors (ctx : Ctx) : List Interceptor → Nat → Response →
    Response × List (Nat × Bool)
  | [], _, r => (r, [])
  | i :: rest, idx, r =>
    let r' := if ctxNonEmpty ctx then i.Intercept ctx r r.Code
              else i.InterceptSimple r r.Code
    let p := runInterceptors ctx rest (idx + 1) r'
    (p.1, (idx, ctxNonEmpty ctx) :: p.2)

/-- sendInternal (interceptors.go lines 156-178): run the interceptors on the
registry snapshot, then emit header, status code and encoded body of the
(possibly interceptor-mutated) response.  Returns the final response state, the
emission, and the interceptor invocation record. -/
def sendInternal (ctx : Ctx) (snapshot : List Interceptor) (r : Response) :
    Response × Emitted × List (Nat × Bool) :=
  let p := runInterceptors ctx snapshot 0 r
  (p.1, { contentType := p.1.ContentType, code := p.1.Code,
          body := encodeResponseV1 p.1 }, p.2)

/-- SendWithContext (interceptors.go lines 144-153). -/
def SendWithContext (g : Config) (snapshot : List Interceptor) (ctx : Ctx)
    (ts : String) (r : Response) : Response × Emitted × List (Nat × Bool) :=
  match validateResponseSize g r with
  | some _ =>
    let wc := WithCode g ts r 500
    let errorResp := WithContentType wc.2 g.DefaultContentType
    sendInternal ctx snapshot errorResp
  | none => sendInternal ctx snapshot r

/-- Send (interceptors.go lines 139-141). -/
def Send (g : Config) (snapshot : List Interceptor) (ts : String) (r : Response) :
    Response × Emitted × List (Nat × Bool) :=
  SendWithContext g snapshot Ctx.background ts r

/-- Sample timestamp text. -/
def tsEx : String := "2025-01-02T03:04:05Z"

/-- Sample plain response used by several concrete theorems. -/
def rEx : Response := OK defaultConfig tsEx []

/-- Global configuration of the end-to-end scenario: size validation disabled. -/
def gC7 : Config := { defaultConfig with EnableSizeValidation := false }

/-- End-to-end scenario response: not-found, message "missing", caller-facing
trace append with prefix "lookup" and entry "id=42". -/
def rC7 : Response :=
  AddPrefixedTrace gC7 (WithMsg (NotFound gC7 tsEx []) "missing") "lookup" [.str "id=42"]

/-- Global configuration of the size-guard scenario: response size limit of
10 bytes, validation enabled (set through SetConfig, which leaves these valid
values untouched). -/
def gC1 : Config :=
  SetConfig { MaxTraceSize := 50, ResponseSizeLimit := 10, MaxInterceptorAmount := 20,
              DefaultContentType := "application/json", EnableSizeValidation := true }

/-- Oversized response of the size-guard scenario. -/
def rC1 : Response := OK gC1 tsEx ["hello world hello world"]

/-- Response whose message contains an HTML-escapable character, separating the
two JSON encoders. -/
def rC3 : Response := NotFound defaultConfig tsEx ["<"]

/-- Per-instance configuration with trace capacity 1 (valid in all fields). -/
def cfg5 : Config :=
  { MaxTraceSize := 1, ResponseSizeLimit := 1, MaxInterceptorAmount := 1,
    DefaultContentType := "application/json", EnableSizeValidation := false }

/-- Response whose trace is already at its capacity of 1. -/
def r5cex : Response := { rEx with Trace := ["trace: a"], config := cfg5 }

/-- Override whose only non-zero field is the boolean size-validation toggle. -/
def cfgBoolOnly : Config := { zeroConfig with EnableSizeValidation := true }

/-- Response carrying the boolean-only override. -/
def rC6 : Response := { rEx with config := cfgBoolOnly }

/-- One caller-facing trace append call: `(none, entries)` stands for
`AddTrace(entries...)` and `(some p, entries)` for
`AddPrefixedTrace(p, entries...)`. -/
abbrev TraceCall : Type := Option String × List TraceVal

/-- Execution of one caller-facing trace append call. -/
def runTraceCall (g : Config) (r : Response) (c : TraceCall) : Response :=
  match c.1 with
  | none => AddTrace g r c.2
  | some p => AddPrefixedTrace g r p c.2

/-- Effective prefix of a caller-facing append (the fallback rules of
AddTrace and AddPrefixedTrace), given the response's trace-prefix field. -/
def effPfx (tp : String) : Option String → String
  | none => if tp = "" then "trace" else tp
  | some p => if p = "" then "trace" else p

/-- Full stored texts contributed by one call: each representable entry with
the call's effective prefix attached. -/
def callFulls (tp : String) (c : TraceCall) : List String :=
  (c.2.filterMap toText).map (fun s => effPfx tp c.1 ++ ": " ++ s)

/-- Texts a sequence of caller-facing appends asks to store, in order. -/
def expectedTrace (tp : String) (calls : List TraceCall) : List String :=
  calls.flatMap (callFulls tp)

/-- Closed form of the caller-facing append policy at capacity `M`: append
whole while it fits, otherwise fill up to capacity and overwrite the last slot
with the truncation marker. -/
def truncAppend (M : Nat) (tr fulls : List String) : List String :=
  if fulls.length ≤ M - tr.length then tr ++ fulls
  else (tr ++ fulls.take (M - tr.length)).dropLast ++ [truncMsg (M : Int)]

/-- Global configuration of the trace-truncation witness: capacity 3. -/
def g4w : Config := { defaultConfig with MaxTraceSize := 3 }

/-- Initial response of the trace-truncation witness. -/
def r4w : Response := OK g4w tsEx []

/-- Calls of the trace-truncation witness: four entries over two calls. -/
def calls4w : List TraceCall :=
  [(none, [TraceVal.str "a", TraceVal.str "b", TraceVal.str "c"]),
   (some "db", [TraceVal.str "d"])]

/-- Override with a single positive field. -/
def cfgOneField : Config := { zeroConfig with MaxTraceSize := 5 }

/-- Response carrying the single-field override. -/
def rC6w : Response := { rEx with config := cfgOneField }

/-! Theorems. -/

/-- Behavior of WithCode on an out-of-range code, shared by the frame and
builder claims: the receiver is left untouched and a fresh internal-error
response carrying exactly one status-code diagnostic is returned. -/
theorem withCode_invalid_spec (g : Config) (ts : String) (r : Response) (c : Int)
    (hc : c < 100 ∨ c > 599) (hg : 0 < g.MaxTraceSize) :
    (WithCode g ts r c).1 = r ∧
    (WithCode g ts r c).2 =
      { Module := "", Message := "Invalid status code set", Data := none,
        Trace := ["error: " ++ statusCodeErrorText c], Timestamp := ts,
        PaginationData := none, Code := 500,
        ContentType := g.DefaultContentType, TracePfx := "",
        config := zeroConfig } := by
  have hv : validateStatusCode c = some (statusCodeErrorText c) := by
    unfold validateStatusCode
    exact if_pos hc
  have hcfg : getResponseConfig g (InternalServerError g ts ["Invalid status code set"]) = g := by
    simp [getResponseConfig, InternalServerError, newBaseResponse, zeroConfig]
  constructor
  · simp [WithCode, hv]
  · simp only [WithCode, hv]
    unfold appendTraceInternal appendTrace
    rw [hcfg]
    simp [appendTraceLoop, toText, InternalServerError, newBaseResponse, hg]

/-- Claim C7: constructing a not-found response, attaching message "missing",
attaching trace entry "lookup: id=42" via a caller-facing append, and
delivering it with size validation disabled and no interceptors registered
emits status 404 with a body whose message field is "missing" and whose trace
array is exactly ["lookup: id=42"]. -/
theorem C7_end_to_end :
    (Send gC7 [] "T" rC7).2.1 =
      { contentType := "application/json", code := 404,
        body := "\x7b\"message\":\"missing\",\"trace\":[\"lookup: id=42\"],\"timestamp\":\"2025-01-02T03:04:05Z\",\"code\":404\x7d\n" } := by
  decide

/-- Claim C1, evaluated at a failing input: with a 10-byte limit and size
validation enabled, the size guard does fire on an oversized response, yet the
emitted body is the oversized original's own body (message intact, still over
the limit) with only the code set to 500 and the content type reset to the
global default, and it is not the body of a fresh internal-error response. -/
theorem C1_size_guard_eval :
    validateResponseSize gC1 rC1 = some (84, 10) ∧
    (Send gC1 [] "T" rC1).2.1 =
      { contentType := "application/json", code := 500,
        body := encodeResponseV1 { rC1 with Code := 500 } } ∧
    (Send gC1 [] "T" rC1).2.1.body =
      "\x7b\"message\":\"hello world hello world\",\"timestamp\":\"2025-01-02T03:04:05Z\",\"code\":500\x7d\n" ∧
    (10 : Int) < ((Send gC1 [] "T" rC1).2.1.body.utf8ByteSize : Int) ∧
    (Send gC1 [] "T" rC1).2.1.body ≠ encodeResponseV1 (InternalServerError gC1 tsEx []) := by
  refine ⟨rfl, rfl, rfl, by decide, by decide⟩

/-- Claim C3, evaluated at a failing input: on a response whose message is
"<", the size estimator (encoding/json/v2, no HTML escaping) counts 62 bytes
while the delivery pipeline (encoding/json, which escapes "<" as a 6-byte
sequence) writes 67 body bytes, so the estimator does not use the same
encoding as delivery. -/
theorem C3_estimator_eval :
    estimateSize rC3 = 62 ∧
    ((sendInternal Ctx.background [] rC3).2.1.body.utf8ByteSize : Int) = 67 ∧
    estimateSize rC3 ≠ ((sendInternal Ctx.background [] rC3).2.1.body.utf8ByteSize : Int) := by
  refine ⟨rfl, rfl, by decide⟩

/-- Claim C2, counterexample: WithCode(700) does not replace the receiver in
place; the receiver keeps all its state (code 200 here) and is not an
internal-error state, while a distinct internal-error response is returned. -/
theorem C2_cex :
    (WithCode defaultConfig "T2" rEx 700).1 = rEx ∧
    (WithCode defaultConfig "T2" rEx 700).1.Code = 200 ∧
    (WithCode defaultConfig "T2" rEx 700).2.Code = 500 := by
  refine ⟨rfl, rfl, rfl⟩

/-- Claim C5, counterexample: with the trace at its capacity of 1, an
internal-mode append of entry "boom" under prefix "error" stores the bare text
"boom", not the prefixed form "error: boom". -/
theorem C5_cex :
    (appendTraceInternal defaultConfig r5cex "error" [.str "boom"]).Trace = ["boom"] ∧
    ("boom" : String) ≠ "error" ++ ": " ++ "boom" := by
  refine ⟨rfl, by decide⟩

/-- Claim C6, counterexample: an override whose only non-zero field is the
boolean `EnableSizeValidation` is not the zero value, yet configuration
resolution ignores it and returns the process-wide snapshot. -/
theorem C6_cex :
    rC6.config ≠ zeroConfig ∧
    getResponseConfig defaultConfig rC6 = defaultConfig ∧
    getResponseConfig defaultConfig rC6 ≠ rC6.config := by
  refine ⟨by decide, rfl, by decide⟩

/-- Interceptor loop: the invocation record lists consecutive positions
starting at `idx`, one per interceptor of the snapshot, each tagged with
whether the context-aware capability was used. -/
theorem runInterceptors_events (ctx : Ctx) :
    ∀ (snapshot : List Interceptor) (idx : Nat) (r : Response),
      (runInterceptors ctx snapshot idx r).2 =
        (List.range' idx snapshot.length).map (fun i => (i, ctxNonEmpty ctx)) := by
  intro snapshot
  induction snapshot with
  | nil => intro idx r; simp [runInterceptors]
  | cons i rest ih =>
    intro idx r
    simp only [runInterceptors, List.length_cons, List.range'_succ, List.map_cons]
    rw [ih]

/-- Claim C8: delivery invokes each interceptor of the registry snapshot
exactly once, in registration order (the invocation record is exactly the
positions 0,1,...,n-1 in order), using the context-aware capability exactly
when a non-empty request-scoped context is available; delivery via Send uses
the context-free capability on every interceptor. -/
theorem C8_interceptor_order (ctx : Ctx) (snapshot : List Interceptor)
    (r : Response) (g : Config) (ts : String) :
    (sendInternal ctx snapshot r).2.2 =
      (List.range snapshot.length).map (fun i => (i, ctxNonEmpty ctx)) ∧
    (Send g snapshot ts r).2.2 =
      (List.range snapshot.length).map (fun i => (i, false)) := by
  constructor
  · simp only [sendInternal, List.range_eq_range' snapshot.length]
    exact runInterceptors_events ctx snapshot 0 r
  · unfold Send SendWithContext
    cases hv : validateResponseSize g r with
    | some e =>
      simp only [sendInternal, List.range_eq_range' snapshot.length]
      have h := runInterceptors_events Ctx.background snapshot 0
        (WithContentType (WithCode g ts r 500).2 g.DefaultContentType)
      simpa [ctxNonEmpty] using h
    | none =>
      simp only [sendInternal, List.range_eq_range' snapshot.length]
      have h := runInterceptors_events Ctx.background snapshot 0 r
      simpa [ctxNonEmpty] using h

/-- Claim C10: WithConfig stores the normalized configuration (the same
normalization SetConfig applies) and overwrites the response's content type
with the normalized default content type exactly when the current content type
is empty or equals the process-wide default at the time of the call; every
other response field is left unchanged. -/
theorem C10_withconfig_frame (g : Config) (r : Response) (config : Config) :
    (WithConfig g r config).config = SetConfig config ∧
    (WithConfig g r config).ContentType =
      (if r.ContentType = "" ∨ r.ContentType = g.DefaultContentType
       then (SetConfig config).DefaultContentType else r.ContentType) ∧
    (WithConfig g r config).Module = r.Module ∧
    (WithConfig g r config).Message = r.Message ∧
    (WithConfig g r config).Data = r.Data ∧
    (WithConfig g r config).Trace = r.Trace ∧
    (WithConfig g r config).Timestamp = r.Timestamp ∧
    (WithConfig g r config).PaginationData = r.PaginationData ∧
    (WithConfig g r config).Code = r.Code ∧
    (WithConfig g r config).TracePfx = r.TracePfx := by
  unfold WithConfig SetConfig
  dsimp only
  split <;> simp

/-- Claim C9: for an out-of-range code, WithCode leaves the receiver unchanged
in every field and returns a newly built response whose code is 500, whose
message is "Invalid status code set" and whose trace is exactly one
status-code diagnostic; none of the receiver's module, message, data, trace,
pagination, content type or per-instance configuration is carried over (every
field of the returned value is pinned independently of `r`). -/
theorem C9_withcode_frame (g : Config) (ts : String) (r : Response) (c : Int)
    (hc : c < 100 ∨ c > 599) (hg : 0 < g.MaxTraceSize) :
    (WithCode g ts r c).1 = r ∧
    (WithCode g ts r c).2 =
      { Module := "", Message := "Invalid status code set", Data := none,
        Trace := ["error: " ++ statusCodeErrorText c], Timestamp := ts,
        PaginationData := none, Code := 500,
        ContentType := g.DefaultContentType, TracePfx := "",
        config := zeroConfig } :=
  withCode_invalid_spec g ts r c hc hg

/-- Witness for C9 at code 700. -/
theorem C9_withcode_frame_witness :
    (WithCode defaultConfig "T2" rEx 700).1 = rEx ∧
    (WithCode defaultConfig "T2" rEx 700).2 =
      { Module := "", Message := "Invalid status code set", Data := none,
        Trace := ["error: " ++ statusCodeErrorText 700], Timestamp := "T2",
        PaginationData := none, Code := 500,
        ContentType := defaultConfig.DefaultContentType, TracePfx := "",
        config := zeroConfig } :=
  C9_withcode_frame defaultConfig "T2" rEx 700 (Or.inr (by decide)) (by decide)

/-- Claim C2 as amended: an out-of-range code does not replace the receiver in
place; the receiver is left unchanged and a fresh internal-error response with
a status-code diagnostic is returned, so only the fluent chain (which operates
on the returned value) continues on the internal-error state; an in-range code
sets the receiver's code with no diagnostic added, the returned value being
the updated receiver itself. -/
theorem C2_amended (g : Config) (ts : String) (r : Response) (c : Int)
    (hg : 0 < g.MaxTraceSize) :
    (c < 100 ∨ c > 599 →
      (WithCode g ts r c).1 = r ∧
      (WithCode g ts r c).2 =
        { Module := "", Message := "Invalid status code set", Data := none,
          Trace := ["error: " ++ statusCodeErrorText c], Timestamp := ts,
          PaginationData := none, Code := 500,
          ContentType := g.DefaultContentType, TracePfx := "",
          config := zeroConfig }) ∧
    (100 ≤ c ∧ c ≤ 599 →
      (WithCode g ts r c).1 = { r with Code := c } ∧
      (WithCode g ts r c).2 = { r with Code := c }) := by
  constructor
  · intro hc
    exact withCode_invalid_spec g ts r c hc hg
  · intro hc
    have hv : validateStatusCode c = none := by
      unfold validateStatusCode
      rw [if_neg]
      omega
    simp [WithCode, hv]

/-- Witness for C2 at codes 404 and 700. -/
theorem C2_amended_witness :
    (WithCode defaultConfig "T2" rEx 404).1 = { rEx with Code := 404 } ∧
    (WithCode defaultConfig "T2" rEx 700).1 = rEx := by
  constructor
  · exact ((C2_amended defaultConfig "T2" rEx 404 (by decide)).2 (by decide)).1
  · exact ((C2_amended defaultConfig "T2" rEx 700 (by decide)).1 (Or.inr (by decide))).1

/-- Origin of every element of the trace after one appendTrace call: it was
already stored, or is a prefixed form of a representable entry of the call, or
(internal mode only) the bare text of a representable entry written into the
last slot, or (caller mode only) the truncation marker. -/
theorem appendTraceLoop_mem (cfg : Config) (pfx : String) (force : Bool) :
    ∀ (ts : List TraceVal) (tr : List String) (e : String),
      e ∈ appendTraceLoop cfg pfx force tr ts →
      e ∈ tr ∨ (∃ s ∈ ts.filterMap toText, e = pfx ++ ": " ++ s) ∨
      (force = true ∧ ∃ s ∈ ts.filterMap toText, e = s) ∨
      (force = false ∧ e = truncMsg cfg.MaxTraceSize) := by
  intro ts
  induction ts with
  | nil =>
    intro tr e he
    simp only [appendTraceLoop] at he
    exact Or.inl he
  | cons t rest ih =>
    intro tr e he
    rw [appendTraceLoop] at he
    cases ht : toText t with
    | none =>
      simp only [ht] at he
      have hfm : List.filterMap toText (t :: rest) = List.filterMap toText rest := by
        simp [List.filterMap_cons, ht]
      rw [hfm]
      exact ih tr e he
    | some s0 =>
      simp only [ht] at he
      have hfm : List.filterMap toText (t :: rest) = s0 :: List.filterMap toText rest := by
        simp [List.filterMap_cons, ht]
      rw [hfm]
      have liftGoal :
          (e ∈ tr ∨ (∃ s ∈ List.filterMap toText rest, e = pfx ++ ": " ++ s) ∨
            (force = true ∧ ∃ s ∈ List.filterMap toText rest, e = s) ∨
            (force = false ∧ e = truncMsg cfg.MaxTraceSize)) →
          (e ∈ tr ∨ (∃ s ∈ s0 :: List.filterMap toText rest, e = pfx ++ ": " ++ s) ∨
            (force = true ∧ ∃ s ∈ s0 :: List.filterMap toText rest, e = s) ∨
            (force = false ∧ e = truncMsg cfg.MaxTraceSize)) := by
        rintro (h | ⟨s1, hs1, he1⟩ | ⟨hfx, s2, hs2, he2⟩ | h)
        · exact Or.inl h
        · exact Or.inr (Or.inl ⟨s1, List.mem_cons_of_mem _ hs1, he1⟩)
        · exact Or.inr (Or.inr (Or.inl ⟨hfx, s2, List.mem_cons_of_mem _ hs2, he2⟩))
        · exact Or.inr (Or.inr (Or.inr h))
      by_cases h1 : (tr.length : Int) < cfg.MaxTraceSize
      · rw [if_pos h1] at he
        rcases ih _ e he with h | h2 | h3 | h4
        · rcases List.mem_append.mp h with h | h
          · exact Or.inl h
          · have he2 : e = pfx ++ ": " ++ s0 := by simpa using h
            exact Or.inr (Or.inl ⟨s0, List.mem_cons_self _ _, he2⟩)
        · exact liftGoal (Or.inr (Or.inl h2))
        · exact liftGoal (Or.inr (Or.inr (Or.inl h3)))
        · exact liftGoal (Or.inr (Or.inr (Or.inr h4)))
      · rw [if_neg h1] at he
        by_cases hfc : force = true
        · rw [if_pos hfc] at he
          by_cases hM : 0 < cfg.MaxTraceSize
          · rw [if_pos hM] at he
            rcases ih _ e he with h | h2 | h3 | h4
            · rcases List.mem_or_eq_of_mem_set h with h' | h'
              · exact Or.inl h'
              · exact Or.inr (Or.inr (Or.inl ⟨hfc, s0, List.mem_cons_self _ _, h'⟩))
            · exact liftGoal (Or.inr (Or.inl h2))
            · exact liftGoal (Or.inr (Or.inr (Or.inl h3)))
            · exact liftGoal (Or.inr (Or.inr (Or.inr h4)))
          · rw [if_neg hM] at he
            exact liftGoal (ih tr e he)
        · rw [if_neg hfc] at he
          have hfB : force = false := by
            cases force
            · rfl
            · exact absurd rfl hfc
          by_cases hM : 0 < cfg.MaxTraceSize
          · rw [if_pos hM] at he
            by_cases hgd : tr.getD (cfg.MaxTraceSize - 1).toNat "" = truncMsg cfg.MaxTraceSize
            · rw [if_pos hgd] at he
              exact Or.inl he
            · rw [if_neg hgd] at he
              rcases List.mem_or_eq_of_mem_set he with h' | h'
              · exact Or.inl h'
              · exact Or.inr (Or.inr (Or.inr ⟨hfB, h'⟩))
          · rw [if_neg hM] at he
            exact liftGoal (ih tr e he)

/-- Claim C5 as amended: entries that are not a string, an error or a Stringer
are silently skipped (the call behaves as if they were absent), and every
element of the stored trace is a previously stored element, a representable
entry stored in the form "prefix: text", the bare unprefixed text of a
representable entry (internal-mode overwrite of the last slot at capacity), or
the caller-mode truncation marker. -/
theorem C5_amended (g : Config) (r : Response) (pfx : String) (force : Bool)
    (trace : List TraceVal) :
    (∀ t, toText t = none →
      appendTrace g r pfx force (t :: trace) = appendTrace g r pfx force trace) ∧
    (∀ e ∈ (appendTrace g r pfx force trace).Trace,
      e ∈ r.Trace ∨
      (∃ s ∈ trace.filterMap toText, e = pfx ++ ": " ++ s) ∨
      (force = true ∧ ∃ s ∈ trace.filterMap toText, e = s) ∨
      (force = false ∧ e = truncMsg (getResponseConfig g r).MaxTraceSize)) := by
  constructor
  · intro t ht
    unfold appendTrace
    rw [appendTraceLoop, ht]
  · intro e he
    exact appendTraceLoop_mem (getResponseConfig g r) pfx force trace r.Trace e he

/-- Witness for C5: a non-representable entry is skipped. -/
theorem C5_amended_witness :
    appendTrace defaultConfig rEx "p" false [TraceVal.other] =
      appendTrace defaultConfig rEx "p" false [] :=
  (C5_amended defaultConfig rEx "p" false []).1 TraceVal.other rfl

/-- Claim C6 as amended: configuration resolution returns the process-wide
snapshot when the override is the zero value, and returns the override
verbatim (no field-by-field merging) whenever one of its numeric fields is
positive or its content-type string is non-empty; an override whose only
non-zero field is the boolean size-validation toggle is treated as absent. -/
theorem C6_amended (g : Config) (r : Response) :
    (r.config = zeroConfig → getResponseConfig g r = g) ∧
    (0 < r.config.MaxTraceSize ∨ 0 < r.config.ResponseSizeLimit ∨
     0 < r.config.MaxInterceptorAmount ∨ r.config.DefaultContentType ≠ "" →
      getResponseConfig g r = r.config) := by
  constructor
  · intro h
    simp [getResponseConfig, h, zeroConfig]
  · intro h
    unfold getResponseConfig
    exact if_pos h

/-- Witness for C6: a single-field override fully replaces the default; the
zero-value override resolves to the process-wide snapshot. -/
theorem C6_amended_witness :
    getResponseConfig defaultConfig rC6w = cfgOneField ∧
    getResponseConfig defaultConfig rEx = defaultConfig := by
  constructor
  · exact (C6_amended defaultConfig rC6w).2 (Or.inl (by decide))
  · exact (C6_amended defaultConfig rEx).1 (by decide)

/-- Setting the last slot of a non-empty list. -/
theorem setLastEq (l : List String) (x : String) (h : l ≠ []) :
    l.set (l.length - 1) x = l.dropLast ++ [x] := by
  have hn : l.length - 1 < l.length := Nat.sub_lt (List.length_pos.mpr h) one_pos
  rw [List.set_eq_take_cons_drop x hn]
  have h1 : l.length - 1 + 1 = l.length := Nat.succ_pred_eq_of_pos (List.length_pos.mpr h)
  rw [h1, List.drop_length, List.dropLast_eq_take]

/-- Pushing one freshly appended element of the closed form back into the
pending list. -/
theorem truncAppend_cons (M : Nat) (tr : List String) (x : String)
    (fs : List String) (h : tr.length < M) :
    truncAppend M (tr ++ [x]) fs = truncAppend M tr (x :: fs) := by
  unfold truncAppend
  simp only [List.length_append, List.length_cons, List.length_nil, Nat.zero_add]
  by_cases hc : fs.length ≤ M - (tr.length + 1)
  · rw [if_pos hc, if_pos (by omega)]
    simp
  · rw [if_neg hc, if_neg (by omega)]
    have h2 : M - tr.length = (M - (tr.length + 1)) + 1 := by omega
    rw [h2, List.take_succ_cons]
    simp

/-- The closed form never exceeds the capacity. -/
theorem truncAppend_le (M : Nat) (hM1 : 1 ≤ M) (tr fs : List String)
    (h : tr.length ≤ M) : (truncAppend M tr fs).length ≤ M := by
  unfold truncAppend
  by_cases hc : fs.length ≤ M - tr.length
  · rw [if_pos hc]
    simp
    omega
  · rw [if_neg hc]
    simp only [List.length_append, List.length_dropLast, List.length_take,
      List.length_cons, List.length_nil]
    omega

/-- Characterization of the caller-facing append loop: it implements the
closed form `truncAppend` at the configured capacity. -/
theorem appendTraceLoop_false_eq (cfg : Config) (pfx : String) (M : Nat)
    (hM : cfg.MaxTraceSize = (M : Int)) (hM1 : 1 ≤ M) :
    ∀ (ts : List TraceVal) (tr : List String), tr.length ≤ M →
      appendTraceLoop cfg pfx false tr ts =
        truncAppend M tr ((ts.filterMap toText).map (fun s => pfx ++ ": " ++ s)) := by
  intro ts
  induction ts with
  | nil =>
    intro tr htr
    simp [appendTraceLoop, truncAppend]
  | cons t rest ih =>
    intro tr htr
    rw [appendTraceLoop]
    cases ht : toText t with
    | none =>
      simp only [ht, List.filterMap_cons]
      exact ih tr htr
    | some s =>
      simp only [ht, List.filterMap_cons, List.map_cons]
      by_cases h1 : (tr.length : Int) < cfg.MaxTraceSize
      · have h1N : tr.length < M := by
          rw [hM] at h1
          exact_mod_cast h1
        have hlen2 : (tr ++ [pfx ++ ": " ++ s]).length ≤ M := by
          simp only [List.length_append, List.length_cons, List.length_nil, Nat.zero_add]
          omega
        rw [if_pos h1, ih (tr ++ [pfx ++ ": " ++ s]) hlen2]
        exact truncAppend_cons M tr (pfx ++ ": " ++ s) _ h1N
      · have hlen : tr.length = M := by
          rw [hM] at h1
          omega
        have hM0 : 0 < cfg.MaxTraceSize := by
          rw [hM]
          exact_mod_cast hM1
        have htrne : tr ≠ [] := by
          intro h0
          rw [h0] at hlen
          simp at hlen
          omega
        have hidx : (cfg.MaxTraceSize - 1).toNat = tr.length - 1 := by
          rw [hM, hlen]
          omega
        have hrhs : truncAppend M tr ((pfx ++ ": " ++ s) ::
            (rest.filterMap toText).map (fun s => pfx ++ ": " ++ s)) =
            tr.dropLast ++ [truncMsg (M : Int)] := by
          unfold truncAppend
          rw [if_neg (by simp only [List.length_cons]; omega)]
          rw [hlen]
          simp
        rw [if_neg h1, if_neg (by simp), if_pos hM0, hrhs, ← hM]
        by_cases hgd : tr.getD (cfg.MaxTraceSize - 1).toNat "" = truncMsg cfg.MaxTraceSize
        · rw [if_pos hgd]
          have hn : tr.length - 1 < tr.length := Nat.sub_lt (List.length_pos.mpr htrne) one_pos
          rw [hidx, List.getD_eq_getElem tr "" hn] at hgd
          nth_rewrite 1 [← List.dropLast_append_getLast htrne]
          rw [List.getLast_eq_getElem, hgd]
        · rw [if_neg hgd, hidx]
          exact setLastEq tr (truncMsg cfg.MaxTraceSize) htrne

/-- Composition of the closed form over two batches of pending texts. -/
theorem truncAppend_comp (M : Nat) (hM1 : 1 ≤ M) (tr a b : List String)
    (h : tr.length ≤ M) :
    truncAppend M (truncAppend M tr a) b = truncAppend M tr (a ++ b) := by
  by_cases hA : a.length ≤ M - tr.length
  · have e1 : truncAppend M tr a = tr ++ a := by
      unfold truncAppend
      rw [if_pos hA]
    rw [e1]
    by_cases hB : b.length ≤ M - (tr.length + a.length)
    · unfold truncAppend
      rw [if_pos (by simp only [List.length_append]; omega),
        if_pos (by simp only [List.length_append]; omega)]
      simp
    · unfold truncAppend
      rw [if_neg (by simp only [List.length_append]; omega),
        if_neg (by simp only [List.length_append]; omega)]
      have ht : (a ++ b).take (M - tr.length) =
          a ++ b.take (M - tr.length - a.length) := by
        rw [List.take_append_eq_append_take, List.take_of_length_le hA]
      rw [ht]
      simp only [List.length_append]
      have h2 : M - (tr.length + a.length) = M - tr.length - a.length := by omega
      rw [h2, List.append_assoc]
  · have e1 : truncAppend M tr a =
        (tr ++ a.take (M - tr.length)).dropLast ++ [truncMsg (M : Int)] := by
      unfold truncAppend
      rw [if_neg hA]
    have hlen1 : (truncAppend M tr a).length = M := by
      rw [e1]
      simp only [List.length_append, List.length_dropLast, List.length_take,
        List.length_cons, List.length_nil]
      omega
    cases b with
    | nil =>
      have eb : truncAppend M (truncAppend M tr a) [] = truncAppend M tr a := by
        unfold truncAppend
        rw [if_pos (by simp)]
        simp
      rw [eb, List.append_nil]
    | cons b0 bs =>
      rw [e1]
      have hab : ¬ (a ++ b0 :: bs).length ≤ M - tr.length := by
        simp only [List.length_append, List.length_cons]
        omega
      have htake : (a ++ b0 :: bs).take (M - tr.length) = a.take (M - tr.length) := by
        rw [List.take_append_eq_append_take]
        have hz : M - tr.length - a.length = 0 := by omega
        rw [hz, List.take_zero, List.append_nil]
      have hX : ((tr ++ a.take (M - tr.length)).dropLast ++ [truncMsg (M : Int)]).length = M := by
        rw [← e1]
        exact hlen1
      unfold truncAppend
      rw [if_neg (by rw [hX]; simp only [List.length_cons]; omega), if_neg hab, htake]
      have hz2 : M - ((tr ++ a.take (M - tr.length)).dropLast ++ [truncMsg (M : Int)]).length = 0 := by
        rw [hX]
        omega
      rw [hz2, List.take_zero, List.append_nil, List.dropLast_concat]

/-- Execution of one caller-facing append call in terms of the loop. -/
theorem runTraceCall_eq (g : Config) (r : Response) (c : TraceCall) :
    runTraceCall g r c =
      { r with Trace := appendTraceLoop (getResponseConfig g r) (effPfx r.TracePfx c.1) false r.Trace c.2 } := by
  obtain ⟨op, entries⟩ := c
  cases op with
  | none =>
    unfold runTraceCall AddTrace appendTrace effPfx
    by_cases h : r.TracePfx = "" <;> simp [h]
  | some p =>
    unfold runTraceCall AddPrefixedTrace appendTrace effPfx
    by_cases h : p = "" <;> simp [h]

/-- Folding a sequence of caller-facing append calls computes the closed form
of all their pending texts at once. -/
theorem foldl_runTraceCall (g : Config) (M : Nat) (hM1 : 1 ≤ M) :
    ∀ (calls : List TraceCall) (r : Response),
      (getResponseConfig g r).MaxTraceSize = (M : Int) →
      r.Trace.length ≤ M →
      (calls.foldl (runTraceCall g) r).Trace =
        truncAppend M r.Trace (expectedTrace r.TracePfx calls) := by
  intro calls
  induction calls with
  | nil =>
    intro r hM htr
    simp [expectedTrace, truncAppend]
  | cons c calls ih =>
    intro r hM htr
    rw [List.foldl_cons]
    have hr' := runTraceCall_eq g r c
    have hloop : appendTraceLoop (getResponseConfig g r) (effPfx r.TracePfx c.1)
        false r.Trace c.2 = truncAppend M r.Trace (callFulls r.TracePfx c) :=
      appendTraceLoop_false_eq (getResponseConfig g r) (effPfx r.TracePfx c.1)
        M hM hM1 c.2 r.Trace htr
    have hcfg' : getResponseConfig g (runTraceCall g r c) = getResponseConfig g r := by
      rw [hr']
      unfold getResponseConfig
      rfl
    have htr' : (runTraceCall g r c).Trace.length ≤ M := by
      rw [hr']
      dsimp only
      rw [hloop]
      exact truncAppend_le M hM1 r.Trace _ htr
    have ih' := ih (runTraceCall g r c) (by rw [hcfg']; exact hM) htr'
    rw [ih', hr']
    dsimp only
    rw [hloop, truncAppend_comp M hM1 r.Trace _ _ htr]
    rfl

/-- Claim C4: starting from an empty trace with effective capacity N at least
1, a sequence of caller-facing appends (AddTrace / AddPrefixedTrace, over one
or several calls, all entries text-representable) stores all k requested
entries verbatim with their prefixes in insertion order when k is at most N,
and stores exactly N entries whose last is the truncation marker when k
exceeds N. -/
theorem C4_trace_truncation (g : Config) (r : Response) (M : Nat)
    (calls : List TraceCall)
    (h0 : r.Trace = [])
    (hM : (getResponseConfig g r).MaxTraceSize = (M : Int))
    (hM1 : 1 ≤ M)
    (hrep : ∀ c ∈ calls, ∀ t ∈ c.2, toText t ≠ none) :
    ((expectedTrace r.TracePfx calls).length ≤ M →
      (calls.foldl (runTraceCall g) r).Trace = expectedTrace r.TracePfx calls) ∧
    (M < (expectedTrace r.TracePfx calls).length →
      (calls.foldl (runTraceCall g) r).Trace.length = M ∧
      (calls.foldl (runTraceCall g) r).Trace.getLast? = some (truncMsg (M : Int))) := by
  have hfold := foldl_runTraceCall g M hM1 calls r hM (by rw [h0]; simp)
  rw [h0] at hfold
  constructor
  · intro hle
    rw [hfold]
    unfold truncAppend
    rw [if_pos (by simpa using hle)]
    simp
  · intro hgt
    rw [hfold]
    unfold truncAppend
    rw [if_neg (by simpa using hgt)]
    constructor
    · simp only [List.nil_append, List.length_append, List.length_dropLast,
        List.length_take, List.length_cons, List.length_nil]
      omega
    · exact List.getLast?_concat _

/-- Witness for C4: capacity 3, four entries over two calls. -/
theorem C4_trace_truncation_witness :
    (calls4w.foldl (runTraceCall g4w) r4w).Trace.length = 3 ∧
    (calls4w.foldl (runTraceCall g4w) r4w).Trace.getLast? =
      some (truncMsg (3 : Int)) :=
  (C4_trace_truncation g4w r4w 3 calls4w rfl (by decide) (by decide)
    (by decide)).2 (by decide)

end GoResponse
